import Mathlib

/-!
Verification of the DataVirtuality push-log-to-cloudwatch pipeline.

This file shallowly embeds the core of the repository's Python sources
(`src/libs.py`, `src/cloudwatch.py`) into Lean:

* `matchDate`, `genStep`, `processLines`, `generate_dicts` embed the
  record reconstructor `libs.generate_dicts` together with its helper
  `libs.matchDate` (including the regex shape test and the value ranges
  that `datetime.strptime("%H:%M:%S,%f")` accepts; an out-of-range field
  raises `ValueError`, modelled as `GenError.badTime`).
* `cbLoop`, `create_batches_raw`, `test_batches`, `create_batches` embed
  the batch planner `libs.create_batches` and its self-check
  `libs.test_batches` (a failing `assert` is modelled as
  `Except.error ()`).
* `init_aws_stream`, `plePuts`, `post_log_events` embed the sink
  submission logic of `libs.init_aws_stream` / `libs.post_log_events`,
  with the boto3 client reified as an oracle giving the response to the
  i-th `put_log_events` call.
* `log_auto_runs` embeds the `COMMAND_LOG_AUTO` branch of
  `src/cloudwatch.py`, with each `process_log_file` invocation reified as
  a `RunCall` value recording the arguments the script passes to it.

Python strings are modelled as `List Char` (`PyStr`): Python `len`,
slicing `line[13:]` and `+` concatenation become `List.length`,
`List.drop 13` and `++` on the character list.  The timestamp resolver
`libs.local_to_utc_timestamp` (calendar/timezone arithmetic, external to
the claims) is abstracted as a parameter `toTs : LocalTime → Int`, fixed
for a whole run exactly as the `date_of_log_entries`/`tzinfo` arguments
are fixed in the source.
-/

namespace DVPush

/-- A Python string, as the sequence of its characters. -/
abbrev PyStr := List Char

/-- Time-of-day parsed from a `HH:MM:SS,mmm` log-line timestamp. -/
structure LocalTime where
  hour : Nat
  minute : Nat
  second : Nat
  millis : Nat
deriving DecidableEq, Repr

/-- One reconstructed log event: the dict
`{"timestamp": int, "message": str}` built by `generate_dicts`. -/
structure LogRecord where
  timestamp : Int
  message : PyStr
deriving DecidableEq, Repr

/-- The ways `generate_dicts` can raise: the explicit
`ValueError("currentDict should not be None.")`, and the `ValueError`
coming out of `datetime.strptime` inside `matchDate` (together with the
`assert` in `rem_opt`) when a shape-matching line carries an invalid
time value. -/
inductive GenError where
  | noOpenRecord
  | badTime
deriving DecidableEq, Repr

/-- Numeric value of an ASCII digit character. -/
def digitVal (c : Char) : Nat := c.toNat - '0'.toNat

/-- Whitespace characters matched by the regex class `\s`
(common subset: space, tab, newline, carriage return, vertical tab,
form feed). -/
def isPySpace (c : Char) : Bool :=
  c == ' ' || c == '\t' || c == '\n' || c == '\r' || c == '\x0b' || c == '\x0c'

/-- The regex `^\d{2}:\d{2}:\d{2},\d{3}\s` of `libs.matchDate`: does the
line start with a 13-character timestamp shape (12 time characters plus
one whitespace separator)?  On success, the digits are decoded to a
`LocalTime` the way `strptime("%H:%M:%S,%f")` decodes them (`%f` on
three digits means milliseconds). -/
def timestampShape : PyStr → Option LocalTime
  | d1 :: d2 :: c1 :: d3 :: d4 :: c2 :: d5 :: d6 :: c3 :: d7 :: d8 :: d9 :: s :: _ =>
    if d1.isDigit && d2.isDigit && c1 == ':' && d3.isDigit && d4.isDigit && c2 == ':' &&
        d5.isDigit && d6.isDigit && c3 == ',' && d7.isDigit && d8.isDigit && d9.isDigit &&
        isPySpace s then
      some { hour := 10 * digitVal d1 + digitVal d2
             minute := 10 * digitVal d3 + digitVal d4
             second := 10 * digitVal d5 + digitVal d6
             millis := 100 * digitVal d7 + 10 * digitVal d8 + digitVal d9 }
    else none
  | _ => none

/-- `libs.matchDate`.  `some (false, none)`: the regex did not match.
`some (true, some t)`: the regex matched and `strptime` parsed the
stripped 12-character time.  `none`: the regex matched but `strptime`
raised `ValueError` (hour > 23, minute > 59 or second > 59; Python's
value-constrained `%H`/`%M`/`%S` sub-regexes, resp. the `datetime`
constructor for leap seconds, reject exactly these). -/
def matchDate (line : PyStr) : Option (Bool × Option LocalTime) :=
  match timestampShape line with
  | none => some (false, none)
  | some t =>
    if t.hour ≤ 23 && t.minute ≤ 59 && t.second ≤ 59 then some (true, some t)
    else none

/-- `SKIP_CHARS` from `libs.generate_dicts`: length of the stripped
timestamp prefix (12 characters plus the separator). -/
def SKIP_CHARS : Nat := 13

/-- One iteration of the `for line in log_fh` loop body of
`libs.generate_dicts`.  State is `(currentDict, line_num)`; the result
is the list of records yielded during this iteration plus the new
state, or the error raised.  `skip` is the Python `int`
`skip_num_entries` (which the CLI allows to be negative). -/
def genStep (toTs : LocalTime → Int) (skip : Int) (st : Option LogRecord × Nat)
    (line : PyStr) : Except GenError (List LogRecord × (Option LogRecord × Nat)) :=
  match matchDate line with
  | none => Except.error GenError.badTime
  | some (true, some t) =>
    let n := st.2 + 1
    if (n : Int) ≤ skip then Except.ok ([], (st.1, n))
    else
      Except.ok (st.1.toList,
        (some { timestamp := toTs t, message := line.drop SKIP_CHARS }, n))
  | some (true, none) => Except.error GenError.badTime
  | some (false, _) =>
    if (st.2 : Int) ≤ skip then Except.ok ([], st)
    else
      match st.1 with
      | none => Except.error GenError.noOpenRecord
      | some d => Except.ok ([], (some { d with message := d.message ++ line }, st.2))

/-- The loop of `libs.generate_dicts`, from an arbitrary state: returns
the records yielded (in order) and the error that stopped the
generator, if any.  At end of stream the pending `currentDict`, if
non-`None`, is yielded. -/
def processLines (toTs : LocalTime → Int) (skip : Int) :
    List PyStr → Option LogRecord × Nat → List LogRecord × Option GenError
  | [], st => (st.1.toList, none)
  | line :: rest, st =>
    match genStep toTs skip st line with
    | Except.error e => ([], some e)
    | Except.ok (out, st') =>
      let r := processLines toTs skip rest st'
      (out ++ r.1, r.2)

/-- `libs.generate_dicts`: run the loop from the initial state
`currentDict = None`, `line_num = 0`. -/
def generate_dicts (toTs : LocalTime → Int) (skip : Int) (lines : List PyStr) :
    List LogRecord × Option GenError :=
  processLines toTs skip lines (none, 0)

/-- `EVENT_OVERHEAD` from `libs.create_batches`. -/
def EVENT_OVERHEAD : Nat := 26

/-- `MAX_BYTES` from `libs.create_batches`. -/
def MAX_BYTES : Nat := 1048576

/-- `MAX_EVENTS` from `libs.create_batches`. -/
def MAX_EVENTS : Nat := 10000

/-- The per-event size `len(ev['message']) + EVENT_OVERHEAD` computed in
`libs.create_batches`. -/
def eventSize (e : LogRecord) : Nat := e.message.length + EVENT_OVERHEAD

/-- The `for idx, val in enumerate(events)` loop of
`libs.create_batches`, with the loop variables made explicit:
`rem = events[idx:]` is the part of the list still to be visited, and
Python slices `events[a:b]` become `(events.drop a).take (b - a)`. -/
def cbLoop (events : List LogRecord) :
    List LogRecord → Nat → Nat → Nat → Nat → List (List LogRecord) → List (List LogRecord)
  | [], _, _, _, _, batches => batches
  | val :: rest, idx, start_pos, num_events, cumulative_size, batches =>
    let num_events' := num_events + 1
    let size := eventSize val
    if idx + 1 = events.length then
      cbLoop events rest (idx + 1) start_pos num_events' cumulative_size
        (batches ++ [events.drop start_pos])
    else if MAX_EVENTS < num_events' ∨ MAX_BYTES < cumulative_size + size then
      cbLoop events rest (idx + 1) idx 1 size
        (batches ++ [(events.drop start_pos).take (idx - start_pos)])
    else
      cbLoop events rest (idx + 1) start_pos num_events' (cumulative_size + size) batches

/-- The batch list `libs.create_batches` builds before handing it to
`test_batches`. -/
def create_batches_raw (events : List LogRecord) : List (List LogRecord) :=
  cbLoop events events 0 0 0 0 []

/-- The per-batch asserts of `libs.test_batches`:
`len(batch) <= MAX_EVENTS` and `sum_bytes <= MAX_BYTES`.  (The source's
`sum_events` equals `len(batch)` by construction and its `isinstance`
checks hold by typing, so they add nothing here.) -/
def batchOk (b : List LogRecord) : Bool :=
  decide (b.length ≤ MAX_EVENTS) && decide ((b.map eventSize).sum ≤ MAX_BYTES)

/-- `libs.test_batches` as a predicate: all per-batch asserts pass and
`total_events == TOTAL_NUM_EVENTS`. -/
def test_batches (batches : List (List LogRecord)) (total : Nat) : Bool :=
  batches.all batchOk && decide ((batches.map List.length).sum = total)

/-- `libs.create_batches`: build the batches, then run the mandatory
self-check; a failing assert in `test_batches` raises
(`Except.error ()`), otherwise the batches are returned. -/
def create_batches (events : List LogRecord) : Except Unit (List (List LogRecord)) :=
  let batches := create_batches_raw events
  if test_batches batches events.length then Except.ok batches else Except.error ()

/-- One entry of the `describe_log_streams` response consumed by
`libs.init_aws_stream`. -/
structure StreamInfo where
  logStreamName : String
  uploadSequenceToken : Option String
deriving DecidableEq, Repr

/-- `libs.init_aws_stream`: locate the first stream with the exact
target name (the `locate`/`next` pair); if found, return its
`uploadSequenceToken`; otherwise create the stream and return `None`.
The second component records whether `create_log_stream` was called
(stream newly created). -/
def init_aws_stream (streams : List StreamInfo) (log_stream_name : String) :
    Option String × Bool :=
  match streams.find? (fun s => s.logStreamName == log_stream_name) with
  | some s => (s.uploadSequenceToken, false)
  | none => (none, true)

/-- The sink's response to one `put_log_events` call. -/
structure SinkResp where
  nextSequenceToken : Option String
  rejectedLogEventsInfo : Option String
deriving DecidableEq, Repr

/-- One `put_log_events` call as issued by `libs.post_log_events`:
the `sequenceToken` argument actually passed (`none` when the kwarg is
omitted) and the batch submitted. -/
structure PutCall where
  sequenceToken : Option String
  logEvents : List LogRecord
deriving DecidableEq, Repr

/-- The loop of `libs.post_log_events`.  `sink i` is the (external)
response to the i-th call.  Returns the calls issued, in order, and the
accumulated `rejected_events` list. -/
def plePuts (sink : Nat → SinkResp) :
    Nat → Option String → List (List LogRecord) → List PutCall × List String
  | _, _, [] => ([], [])
  | i, tok, b :: rest =>
    let r := plePuts sink (i + 1) (sink i).nextSequenceToken rest
    (⟨tok, b⟩ :: r.1,
      match (sink i).rejectedLogEventsInfo with
      | some x => x :: r.2
      | none => r.2)

/-- `libs.post_log_events`: submit every batch in order, threading
`next_token = response.get('nextSequenceToken')` between calls, starting
from the token produced by `init_aws_stream`. -/
def post_log_events (sink : Nat → SinkResp) (next_token : Option String)
    (log_event_batches : List (List LogRecord)) : List PutCall × List String :=
  plePuts sink 0 next_token log_event_batches

/-- The fields of `ResultOfLogProcessing` that the `COMMAND_LOG_AUTO`
branch of `src/cloudwatch.py` reads or mutates. -/
structure ResumeState where
  server_log_base_file_path : String
  processed_server_log_file_path : String
  date_used : String
  num_events_processed : Int
  num_events_skipped : Int
  num_batches : Int
  tzinfo : String
deriving DecidableEq, Repr

/-- One `process_log_file` invocation issued by the auto branch, with
the arguments the script passes: the skip offset, the calendar date
(abstracted to its ordinal number), the file path processed and the
timezone name. -/
structure RunCall where
  skip : Int
  date : Nat
  path : String
  tz : String
deriving DecidableEq, Repr

/-- The `COMMAND_LOG_AUTO` branch of `src/cloudwatch.py`, with
`process_log_file` reified as `RunCall` values appended to
`all_results` in program order.  `previous_date` is the parsed
`previous_results.date_used` (dates abstracted to ordinals, so Python's
`date` comparison is `<` on `Nat`), `today` is `dt.date.today()`, and
`rotated_file_exists` is the `os.path.isfile(rotated_server_log_path)`
test.  Returns the run calls in order and the mutated
`previous_results`. -/
def log_auto_runs (prev : ResumeState) (previous_date today : Nat)
    (rotated_file_exists : Bool) : List RunCall × ResumeState :=
  if previous_date < today then
    let first_runs : List RunCall :=
      if rotated_file_exists then
        [{ skip := prev.num_events_processed + prev.num_events_skipped
           date := previous_date
           path := prev.server_log_base_file_path ++ "." ++ prev.date_used
           tz := prev.tzinfo }]
      else []
    let reset : ResumeState :=
      { prev with
          num_batches := 0
          num_events_processed := 0
          num_events_skipped := 0
          processed_server_log_file_path := prev.server_log_base_file_path }
    (first_runs ++
      [{ skip := reset.num_events_processed + reset.num_events_skipped
         date := today
         path := reset.processed_server_log_file_path
         tz := reset.tzinfo }], reset)
  else
    ([{ skip := prev.num_events_processed + prev.num_events_skipped
        date := today
        path := prev.processed_server_log_file_path
        tz := prev.tzinfo }], prev)

instance {ε α : Type} [DecidableEq ε] [DecidableEq α] : DecidableEq (Except ε α) := fun
  | Except.error e, Except.error f =>
    if h : e = f then isTrue (by rw [h])
    else isFalse fun hc => h (by injection hc)
  | Except.error _, Except.ok _ => isFalse fun hc => Except.noConfusion hc
  | Except.ok _, Except.error _ => isFalse fun hc => Except.noConfusion hc
  | Except.ok a, Except.ok b =>
    if h : a = b then isTrue (by rw [h])
    else isFalse fun hc => h (by injection hc)

/-- A concrete stand-in timestamp resolver used for the executable
examples and witnesses: milliseconds since local midnight. -/
def demoTs (t : LocalTime) : Int :=
  (((t.hour * 3600 + t.minute * 60 + t.second) * 1000 + t.millis : Nat) : Int)

example : matchDate "10:00:00,000 Start\n".toList = some (true, some ⟨10, 0, 0, 0⟩) := by
  decide

example : matchDate "continuation\n".toList = some (false, none) := by decide

example : matchDate "99:00:00,000 x\n".toList = none := by decide

example :
    generate_dicts demoTs 0
      ["10:00:00,000 Start\n".toList, "continuation\n".toList,
        "10:00:01,500 Done\n".toList] =
    ([{ timestamp := 36000000, message := "Start\ncontinuation\n".toList },
      { timestamp := 36001500, message := "Done\n".toList }], none) := by
  decide

example :
    create_batches [{ timestamp := 1, message := ['a'] }] =
      Except.ok [[{ timestamp := 1, message := ['a'] }]] := by
  decide

example : create_batches ([] : List LogRecord) = Except.ok [] := by decide

/-! ### Batch planner: structural lemmas -/

/-- The batches built by `cbLoop` always concatenate back to the full
input: loop invariant is `batches.flatten = events.take start_pos` plus
`rem = events.drop idx`, and the final (`idx + 1 == len(events)`) branch
appends `events[start_pos:]`. -/
lemma cbLoop_join (events : List LogRecord) :
    ∀ (rem : List LogRecord) (idx start_pos num_events cumulative_size : Nat)
      (batches : List (List LogRecord)),
      rem = events.drop idx → rem ≠ [] → start_pos ≤ idx →
      batches.flatten = events.take start_pos →
      (cbLoop events rem idx start_pos num_events cumulative_size batches).flatten = events := by
  intro rem
  induction rem with
  | nil => intro idx sp ne cs bs _ hne _ _; exact absurd rfl hne
  | cons val rest ih =>
    intro idx sp ne cs bs hdrop hne hsp hjoin
    have hidx : idx < events.length := by
      rcases Nat.lt_or_ge idx events.length with h | h
      · exact h
      · rw [List.drop_eq_nil_of_le h] at hdrop; exact absurd hdrop (by simp)
    have hrest : rest = events.drop (idx + 1) := by
      have h1 := congrArg List.tail hdrop
      simpa [List.tail_drop] using h1
    simp only [cbLoop]
    by_cases hlast : idx + 1 = events.length
    · rw [if_pos hlast]
      have hrest0 : rest = [] := by rw [hrest, hlast, List.drop_length]
      subst hrest0
      simp only [cbLoop, List.flatten_append, hjoin]
      simp [List.take_append_drop]
    · rw [if_neg hlast]
      have hlt : idx + 1 < events.length := Nat.lt_of_le_of_ne hidx hlast
      have hrne : rest ≠ [] := by
        rw [hrest]
        intro h0
        have := congrArg List.length h0
        simp [List.length_drop] at this
        omega
      by_cases hover : MAX_EVENTS < ne + 1 ∨ MAX_BYTES < cs + eventSize val
      · rw [if_pos hover]
        have htake : events.take sp ++ (events.drop sp).take (idx - sp) = events.take idx := by
          rw [← List.take_add]
          congr 1
          omega
        apply ih (idx + 1) idx 1 (eventSize val) _ hrest hrne (Nat.le_succ idx)
        simp [List.flatten_append, hjoin, htake]
      · rw [if_neg hover]
        exact ih (idx + 1) sp (ne + 1) (cs + eventSize val) bs hrest hrne
          (le_trans hsp (Nat.le_succ idx)) hjoin

/-- Whatever the input, the constructed batch list concatenates back to
the input, before the self-check even runs. -/
lemma create_batches_raw_join (events : List LogRecord) :
    (create_batches_raw events).flatten = events := by
  cases events with
  | nil => rfl
  | cons e rest =>
    exact cbLoop_join (e :: rest) (e :: rest) 0 0 0 0 [] rfl (by simp) (Nat.le_refl 0)
      (by simp)

/-- An all-26-byte event record with empty message. -/
def rEmpty : LogRecord := { timestamp := 0, message := [] }

/-- 10,001 events with empty messages: one more than `MAX_EVENTS`. -/
def bigEvents : List LogRecord := List.replicate 10001 rEmpty

/-- On a run of empty-message events that never trips the count or byte
check before the last index, `cbLoop` closes no intermediate batch and
the final-event branch lumps everything from `start_pos` into a single
batch. -/
lemma cbLoop_replicate (events : List LogRecord) :
    ∀ (m idx start_pos num_events cumulative_size : Nat)
      (batches : List (List LogRecord)),
      idx + (m + 1) = events.length →
      num_events + m ≤ MAX_EVENTS →
      cumulative_size + EVENT_OVERHEAD * (m + 1) ≤ MAX_BYTES →
      cbLoop events (List.replicate (m + 1) rEmpty) idx start_pos num_events
          cumulative_size batches =
        batches ++ [events.drop start_pos] := by
  intro m
  have hes : eventSize rEmpty = EVENT_OVERHEAD := rfl
  have hme : MAX_EVENTS = 10000 := rfl
  have hmb : MAX_BYTES = 1048576 := rfl
  have heo : EVENT_OVERHEAD = 26 := rfl
  induction m with
  | zero =>
    intro idx sp ne cs bs hlen _ _
    simp only [List.replicate_succ, List.replicate_zero, cbLoop]
    rw [if_pos (by omega)]
  | succ m ih =>
    intro idx sp ne cs bs hlen hne hcs
    rw [hme] at hne
    rw [hmb, heo] at hcs
    simp only [List.replicate_succ, cbLoop] at *
    rw [if_neg (by omega), if_neg (by rw [hes, hme, hmb, heo]; omega)]
    exact ih (idx + 1) sp (ne + 1) (cs + eventSize rEmpty) bs (by omega)
      (by rw [hme]; omega) (by rw [hes, hmb, heo]; omega)

/-- The length of the C1 failing input. -/
lemma bigEvents_length : bigEvents.length = 10001 := by
  rw [show bigEvents = List.replicate 10001 rEmpty from rfl, List.length_replicate]

/-- At the C1 failing input the planner constructs a single batch
holding all 10,001 events. -/
lemma create_batches_raw_big : create_batches_raw bigEvents = [bigEvents] := by
  have h : create_batches_raw bigEvents =
      cbLoop bigEvents (List.replicate (10000 + 1) rEmpty) 0 0 0 0 [] := rfl
  rw [h, cbLoop_replicate bigEvents 10000 0 0 0 0 []]
  · rw [List.drop_zero, List.nil_append]
  · rw [bigEvents_length]
  · decide
  · decide

/-! ### Claims about the batch planner -/

/-- C1 (code bug): the claim says every batch constructed by
`create_batches` obeys both destination constraints, an unfitting final
record forming its own one-record batch.  The code instead appends the
final event to the accumulating batch unconditionally (the
`idx + 1 == len(events)` branch precedes the limit check), so on 10,001
events with empty messages it constructs a single 10,001-event batch;
its own self-check `test_batches` then fails an assert and the call
raises (`Except.error ()`), never returning constraint-satisfying
batches. -/
theorem claim_c1 : create_batches bigEvents = Except.error () := by
  have h1 : bigEvents.length = 10001 := bigEvents_length
  have h2 : batchOk bigEvents = false := by
    simp only [batchOk, h1]
    rfl
  have htest : test_batches [bigEvents] 10001 = false := by
    simp [test_batches, h2]
  simp only [create_batches, create_batches_raw_big, h1, htest]
  rfl

/-- C2: the batches returned by `create_batches` concatenate, in order,
to exactly the input list (no loss, duplication or reordering), and the
empty input yields the empty batch list rather than an error. -/
theorem claim_c2 :
    (∀ (events : List LogRecord) (bs : List (List LogRecord)),
        create_batches events = Except.ok bs → bs.flatten = events) ∧
    create_batches ([] : List LogRecord) = Except.ok [] := by
  refine ⟨?_, by decide⟩
  intro events bs h
  have hbs : bs = create_batches_raw events := by
    simp only [create_batches] at h
    by_cases ht : test_batches (create_batches_raw events) events.length
    · rw [if_pos ht] at h
      injection h with h2
      exact h2.symm
    · rw [if_neg ht] at h
      exact absurd h (fun hc => Except.noConfusion hc)
  rw [hbs, create_batches_raw_join]

/-- A small concrete event for witnesses. -/
def rDemoA : LogRecord := { timestamp := 100, message := ['a'] }

/-- Witness for C2 at a concrete input. -/
theorem claim_c2_witness : ([[rDemoA]] : List (List LogRecord)).flatten = [rDemoA] :=
  claim_c2.1 [rDemoA] [[rDemoA]] (by decide)

/-- C7: the self-check is mandatory and fail-fast.  If `create_batches`
returns normally the batches satisfy the count and byte-size invariants
and partition the input exactly; and if any constructed batch violates
a constraint, the call aborts with an error instead of returning (so no
such batch can reach the sink). -/
theorem claim_c7 :
    (∀ (events : List LogRecord) (bs : List (List LogRecord)),
        create_batches events = Except.ok bs →
        (∀ b ∈ bs, b.length ≤ MAX_EVENTS ∧ (b.map eventSize).sum ≤ MAX_BYTES) ∧
          bs.flatten = events) ∧
    (∀ (events : List LogRecord) (b : List LogRecord),
        b ∈ create_batches_raw events → batchOk b = false →
        create_batches events = Except.error ()) := by
  constructor
  · intro events bs h
    have hok : test_batches (create_batches_raw events) events.length = true ∧
        bs = create_batches_raw events := by
      simp only [create_batches] at h
      by_cases ht : test_batches (create_batches_raw events) events.length
      · rw [if_pos ht] at h
        injection h with h2
        exact ⟨ht, h2.symm⟩
      · rw [if_neg ht] at h
        exact absurd h (fun hc => Except.noConfusion hc)
    obtain ⟨ht, hbs⟩ := hok
    constructor
    · intro b hb
      have hall : (create_batches_raw events).all batchOk = true := by
        simp only [test_batches, Bool.and_eq_true] at ht
        exact ht.1
      rw [List.all_eq_true] at hall
      have hbok : batchOk b = true := hall b (hbs ▸ hb)
      simpa [batchOk, Bool.and_eq_true, decide_eq_true_eq] using hbok
    · rw [hbs, create_batches_raw_join]
  · intro events b hb hbad
    have hall : (create_batches_raw events).all batchOk = false := by
      rcases hval : (create_batches_raw events).all batchOk with _ | _
      · rfl
      · rw [List.all_eq_true] at hval
        rw [hval b hb] at hbad
        exact absurd hbad (by simp)
    simp only [create_batches, test_batches, hall, Bool.false_and]
    rfl

/-- A second small concrete event for witnesses. -/
def rDemoB : LogRecord := { timestamp := 200, message := ['b'] }

/-- Witness for C7 at a concrete input. -/
theorem claim_c7_witness : ([[rDemoB]] : List (List LogRecord)).flatten = [rDemoB] :=
  (claim_c7.1 [rDemoB] [[rDemoB]] (by decide)).2

/-! ### Record reconstructor: step lemmas -/

/-- A shape-matching line with an out-of-range time value raises inside
`matchDate`. -/
lemma genStep_badTime {toTs : LocalTime → Int} {skip : Int}
    {st : Option LogRecord × Nat} {line : PyStr} (hm : matchDate line = none) :
    genStep toTs skip st line = Except.error GenError.badTime := by
  simp [genStep, hm]

/-- The impossible `matched ∧ parsed_time is None` case (the `assert` in
`rem_opt`). -/
lemma genStep_boundary_bad {toTs : LocalTime → Int} {skip : Int}
    {st : Option LogRecord × Nat} {line : PyStr}
    (hm : matchDate line = some (true, none)) :
    genStep toTs skip st line = Except.error GenError.badTime := by
  simp [genStep, hm]

/-- A timestamp line whose boundary count stays within the skip budget
is consumed silently (`continue` before any yield). -/
lemma genStep_boundary_skip {toTs : LocalTime → Int} {skip : Int}
    {cur : Option LogRecord} {j : Nat} {line : PyStr} {t : LocalTime}
    (hm : matchDate line = some (true, some t))
    (h : ((j + 1 : Nat) : Int) ≤ skip) :
    genStep toTs skip (cur, j) line = Except.ok ([], (cur, j + 1)) := by
  simp only [genStep, hm]
  rw [if_pos h]

/-- A timestamp line past the skip budget yields the pending record (if
any) and opens a new one seeded with the line minus its 13-character
prefix. -/
lemma genStep_boundary_open {toTs : LocalTime → Int} {skip : Int}
    {cur : Option LogRecord} {j : Nat} {line : PyStr} {t : LocalTime}
    (hm : matchDate line = some (true, some t))
    (h : ¬ ((j + 1 : Nat) : Int) ≤ skip) :
    genStep toTs skip (cur, j) line =
      Except.ok (cur.toList,
        (some { timestamp := toTs t, message := line.drop SKIP_CHARS }, j + 1)) := by
  simp only [genStep, hm]
  rw [if_neg h]

/-- A continuation line within the skip budget is consumed silently. -/
lemma genStep_cont_skip {toTs : LocalTime → Int} {skip : Int}
    {cur : Option LogRecord} {j : Nat} {line : PyStr} {t : Option LocalTime}
    (hm : matchDate line = some (false, t)) (h : ((j : Nat) : Int) ≤ skip) :
    genStep toTs skip (cur, j) line = Except.ok ([], (cur, j)) := by
  simp [genStep, hm, h]

/-- A continuation line past the skip budget with no open record raises
`ValueError`. -/
lemma genStep_cont_noskip_none {toTs : LocalTime → Int} {skip : Int}
    {cur : Option LogRecord} {j : Nat} {line : PyStr} {t : Option LocalTime}
    (hm : matchDate line = some (false, t)) (h : ¬ ((j : Nat) : Int) ≤ skip)
    (hd : cur = none) :
    genStep toTs skip (cur, j) line = Except.error GenError.noOpenRecord := by
  subst hd
  simp [genStep, hm, h]

/-- A continuation line past the skip budget appends its full text to
the open record. -/
lemma genStep_cont_noskip_some {toTs : LocalTime → Int} {skip : Int}
    {cur : Option LogRecord} {j : Nat} {line : PyStr} {t : Option LocalTime}
    {d : LogRecord} (hm : matchDate line = some (false, t))
    (h : ¬ ((j : Nat) : Int) ≤ skip) (hd : cur = some d) :
    genStep toTs skip (cur, j) line =
      Except.ok ([], (some { d with message := d.message ++ line }, j)) := by
  subst hd
  simp [genStep, hm, h]

/-- Loop unrolling: a successful step contributes its yields and the
loop continues from the new state. -/
lemma processLines_cons_ok {toTs : LocalTime → Int} {skip : Int} {line : PyStr}
    {rest : List PyStr} {st : Option LogRecord × Nat} {out : List LogRecord}
    {st' : Option LogRecord × Nat}
    (h : genStep toTs skip st line = Except.ok (out, st')) :
    processLines toTs skip (line :: rest) st =
      (out ++ (processLines toTs skip rest st').1,
        (processLines toTs skip rest st').2) := by
  simp [processLines, h]

/-- Loop unrolling: a raising step stops the generator with that error
and no further yields. -/
lemma processLines_cons_err {toTs : LocalTime → Int} {skip : Int} {line : PyStr}
    {rest : List PyStr} {st : Option LogRecord × Nat} {e : GenError}
    (h : genStep toTs skip st line = Except.error e) :
    processLines toTs skip (line :: rest) st = ([], some e) := by
  simp [processLines, h]

/-! ### Skip correctness -/

/-- Once the boundary counter has passed the skip threshold, the value
of `skip_num_entries` no longer influences the run at all. -/
lemma processLines_skip_irrelevant (toTs : LocalTime → Int) (k : Int) :
    ∀ (lines : List PyStr) (cur : Option LogRecord) (j : Nat),
      0 ≤ k → k < (j : Int) →
      processLines toTs k lines (cur, j) = processLines toTs 0 lines (cur, j) := by
  intro lines
  induction lines with
  | nil => intro cur j _ _; rfl
  | cons line rest ih =>
    intro cur j hk hj
    rcases hm : matchDate line with _ | ⟨b, t⟩
    · rw [processLines_cons_err (genStep_badTime hm),
        processLines_cons_err (genStep_badTime hm)]
    · cases b with
      | true =>
        cases t with
        | none =>
          rw [processLines_cons_err (genStep_boundary_bad hm),
            processLines_cons_err (genStep_boundary_bad hm)]
        | some tt =>
          rw [processLines_cons_ok (genStep_boundary_open hm (by omega)),
            processLines_cons_ok (genStep_boundary_open hm (by omega)),
            ih _ (j + 1) hk (by omega)]
      | false =>
        cases cur with
        | none =>
          rw [processLines_cons_err (genStep_cont_noskip_none hm (by omega) rfl),
            processLines_cons_err (genStep_cont_noskip_none hm (by omega) rfl)]
        | some d =>
          rw [processLines_cons_ok (genStep_cont_noskip_some hm (by omega) rfl),
            processLines_cons_ok (genStep_cont_noskip_some hm (by omega) rfl),
            ih _ j hk hj]

/-- Relating a run still inside its skip budget (`j ≤ k`, nothing open)
to the unskipped run at the same position (record number `j` open):
the skipped run emits the unskipped run's output minus the records
still due to be skipped, namely `rB` and records `j+1 .. k`. -/
lemma processLines_skip_drop (toTs : LocalTime → Int) (k : Int) (hk : 0 ≤ k) :
    ∀ (lines : List PyStr) (j : Nat) (rB : LogRecord),
      1 ≤ j → (j : Int) ≤ k →
      (processLines toTs k lines (none, j)).1 =
        ((processLines toTs 0 lines (some rB, j)).1).drop (k.toNat + 1 - j) := by
  intro lines
  induction lines with
  | nil =>
    intro j rB hj hjk
    simp only [processLines, Option.toList]
    exact (List.drop_eq_nil_of_le (by simp; omega)).symm
  | cons line rest ih =>
    intro j rB hj hjk
    rcases hm : matchDate line with _ | ⟨b, t⟩
    · rw [processLines_cons_err (genStep_badTime hm),
        processLines_cons_err (genStep_badTime hm)]
      simp
    · cases b with
      | false =>
        rw [processLines_cons_ok (genStep_cont_skip hm (by omega)),
          processLines_cons_ok (genStep_cont_noskip_some hm (by omega) rfl)]
        simp only [List.nil_append]
        exact ih j { rB with message := rB.message ++ line } hj hjk
      | true =>
        cases t with
        | none =>
          rw [processLines_cons_err (genStep_boundary_bad hm),
            processLines_cons_err (genStep_boundary_bad hm)]
          simp
        | some tt =>
          by_cases hA : ((j + 1 : Nat) : Int) ≤ k
          · rw [processLines_cons_ok (genStep_boundary_skip hm hA),
              processLines_cons_ok (genStep_boundary_open hm (by omega))]
            simp only [List.nil_append, Option.toList_some, List.singleton_append]
            rw [ih (j + 1) { timestamp := toTs tt, message := line.drop SKIP_CHARS }
              (by omega) (by omega)]
            rw [show k.toNat + 1 - j = (k.toNat + 1 - (j + 1)) + 1 by omega,
              List.drop_succ_cons]
          · rw [processLines_cons_ok (genStep_boundary_open hm hA),
              processLines_cons_ok (genStep_boundary_open hm (by omega))]
            rw [processLines_skip_irrelevant toTs k rest
              (some { timestamp := toTs tt, message := line.drop SKIP_CHARS }) (j + 1)
              hk (by omega)]
            simp only [Option.toList_none, Option.toList_some, List.nil_append,
              List.singleton_append]
            rw [show k.toNat + 1 - j = 1 by omega, List.drop_succ_cons, List.drop_zero]

/-- Skip correctness from the initial state: a run with skip budget
`k ≥ 0` emits exactly the unskipped run's records minus the first `k`. -/
lemma processLines_skip_drop_zero (toTs : LocalTime → Int) (k : Int) (hk : 0 ≤ k) :
    ∀ lines : List PyStr,
      (processLines toTs k lines (none, 0)).1 =
        ((processLines toTs 0 lines (none, 0)).1).drop k.toNat := by
  intro lines
  induction lines with
  | nil => simp [processLines, Option.toList]
  | cons line rest ih =>
    rcases hm : matchDate line with _ | ⟨b, t⟩
    · rw [processLines_cons_err (genStep_badTime hm),
        processLines_cons_err (genStep_badTime hm)]
      simp
    · cases b with
      | false =>
        rw [processLines_cons_ok (genStep_cont_skip hm (by omega)),
          processLines_cons_ok (genStep_cont_skip hm (by omega))]
        simpa using ih
      | true =>
        cases t with
        | none =>
          rw [processLines_cons_err (genStep_boundary_bad hm),
            processLines_cons_err (genStep_boundary_bad hm)]
          simp
        | some tt =>
          by_cases hA : ((0 + 1 : Nat) : Int) ≤ k
          · rw [processLines_cons_ok (genStep_boundary_skip hm hA),
              processLines_cons_ok (genStep_boundary_open hm (by omega))]
            simp only [List.nil_append, Option.toList_none]
            rw [processLines_skip_drop toTs k hk rest 1
              { timestamp := toTs tt, message := line.drop SKIP_CHARS }
              (Nat.le_refl 1) (by omega)]
            rw [show k.toNat + 1 - 1 = k.toNat by omega]
          · have hk0 : k = 0 := by omega
            subst hk0
            rw [show ((0 : Int)).toNat = 0 from rfl, List.drop_zero]

/-! ### Claims about the record reconstructor -/

/-- Does this line open a record (regex match with a parseable time)? -/
def opensRecord (l : PyStr) : Bool :=
  match matchDate l with
  | some (true, some _) => true
  | _ => false

/-- Concrete demo lines. -/
def dLineA : PyStr := "10:00:00,000 a\n".toList

/-- Concrete demo line with a different timestamp. -/
def dLineB : PyStr := "10:00:01,000 b\n".toList

/-- A continuation line (no timestamp shape). -/
def dCont : PyStr := "garbage\n".toList

/-- A timestamp line of exactly 13 characters: nothing after the
stripped prefix. -/
def dLine13 : PyStr := "10:00:00,000\n".toList

/-- C5: for a stream beginning with a timestamp line and any
`skipNumEntries = k ≥ 0`, the records emitted equal the `k = 0` records
with the first `k` removed (skipping counts only timestamp-line
boundaries; continuation lines of a skipped record are discarded until
the next boundary). -/
theorem claim_c5 (toTs : LocalTime → Int) (k : Int) (line0 : PyStr)
    (rest : List PyStr) (t : LocalTime) (hk : 0 ≤ k)
    (_hb : matchDate line0 = some (true, some t)) :
    (generate_dicts toTs k (line0 :: rest)).1 =
      ((generate_dicts toTs 0 (line0 :: rest)).1).drop k.toNat :=
  processLines_skip_drop_zero toTs k hk (line0 :: rest)

/-- Witness for C5 at a concrete two-record stream with `k = 1`. -/
theorem claim_c5_witness :
    (generate_dicts demoTs 1 [dLineA, dLineB]).1 =
      ((generate_dicts demoTs 0 [dLineA, dLineB]).1).drop (1 : Int).toNat :=
  claim_c5 demoTs 1 dLineA [dLineB] ⟨10, 0, 0, 0⟩ (by decide) (by decide)

/-- With a non-negative skip budget, the `ValueError` branch for a
continuation line with no open record can never execute: whenever the
counter has passed the budget, a record is open. -/
lemma processLines_no_noOpen (toTs : LocalTime → Int) (k : Int) :
    ∀ (lines : List PyStr) (cur : Option LogRecord) (j : Nat),
      (k < (j : Int) → cur.isSome) →
      (processLines toTs k lines (cur, j)).2 ≠ some GenError.noOpenRecord := by
  intro lines
  induction lines with
  | nil => intro cur j _; simp [processLines]
  | cons line rest ih =>
    intro cur j hinv
    rcases hm : matchDate line with _ | ⟨b, t⟩
    · rw [processLines_cons_err (genStep_badTime hm)]; simp
    · cases b with
      | true =>
        cases t with
        | none => rw [processLines_cons_err (genStep_boundary_bad hm)]; simp
        | some tt =>
          by_cases hA : ((j + 1 : Nat) : Int) ≤ k
          · rw [processLines_cons_ok (genStep_boundary_skip hm hA)]
            simpa using ih cur (j + 1) (fun h => absurd hA (by omega))
          · rw [processLines_cons_ok (genStep_boundary_open hm hA)]
            simpa using ih _ (j + 1) (fun _ => Option.isSome_some)
      | false =>
        by_cases hA : ((j : Nat) : Int) ≤ k
        · rw [processLines_cons_ok (genStep_cont_skip hm hA)]
          simpa using ih cur j hinv
        · have hs : cur.isSome := hinv (by omega)
          obtain ⟨d, hd⟩ := Option.isSome_iff_exists.mp hs
          subst hd
          rw [processLines_cons_ok (genStep_cont_noskip_some hm hA rfl)]
          simpa using ih _ j (fun _ => Option.isSome_some)

/-- C10: for every input stream and every `skipNumEntries ≥ 0`, the
`raise ValueError("currentDict should not be None.")` branch of
`generate_dicts` is unreachable — continuation lines before the first
unskipped timestamp line fall under the `line_num <= skip_num_entries`
guard and are silently discarded. -/
theorem claim_c10 (toTs : LocalTime → Int) (k : Int) (lines : List PyStr)
    (hk : 0 ≤ k) :
    (generate_dicts toTs k lines).2 ≠ some GenError.noOpenRecord :=
  processLines_no_noOpen toTs k lines none 0 (fun h => absurd h (by omega))

/-- Witness for C10: a stream that even starts with a continuation line
produces no `noOpenRecord` error at skip 0. -/
theorem claim_c10_witness :
    (generate_dicts demoTs 0 [dCont, dLineA]).2 ≠ some GenError.noOpenRecord :=
  claim_c10 demoTs 0 [dCont, dLineA] (by decide)

/-- C3 counterexample: the claim says a continuation line before any
record has been opened makes `generate_dicts` fail fast and is never
silently dropped.  At skip 0 the code instead discards the line
silently (`line_num = 0 <= 0` triggers `continue`): the run finishes
with no records and no error. -/
theorem claim_c3_cex : generate_dicts demoTs 0 [dCont] = ([], none) := by decide

/-- C3 as amended: a continuation line encountered before any record
has been opened is silently discarded whenever `skipNumEntries ≥ 0`
(the run proceeds as if the line were absent); `generate_dicts` fails
fast on such a line only when `skipNumEntries` is negative. -/
theorem claim_c3_thm (toTs : LocalTime → Int) (k : Int) (line : PyStr)
    (rest : List PyStr) (hm : matchDate line = some (false, none)) :
    (0 ≤ k → generate_dicts toTs k (line :: rest) = generate_dicts toTs k rest) ∧
    (k < 0 → generate_dicts toTs k (line :: rest) =
      ([], some GenError.noOpenRecord)) := by
  constructor
  · intro hk
    unfold generate_dicts
    rw [processLines_cons_ok (genStep_cont_skip hm (by omega))]
    simp
  · intro hk
    unfold generate_dicts
    rw [processLines_cons_err (genStep_cont_noskip_none hm (by omega) rfl)]

/-- Witness for the amended C3: with a negative skip the leading
continuation line does raise. -/
theorem claim_c3_witness :
    generate_dicts demoTs (-1) [dCont] = ([], some GenError.noOpenRecord) :=
  (claim_c3_thm demoTs (-1) dCont [] (by decide)).2 (by decide)

/-- C8 counterexample: the claim says every emitted record has a
non-empty message, but a timestamp line of exactly 13 characters
(`"10:00:00,000\n"`) seeds the message with `line[13:] = ""`, and with
no continuation line following, the record is emitted with an empty
message. -/
theorem claim_c8_cex :
    (generate_dicts demoTs 0 [dLine13]).1 =
      [{ timestamp := 36000000, message := [] }] := by
  decide

/-- Every record the loop emits has a non-empty message, provided every
record-opening line has at least one character after the 13-character
prefix: the seed `line[13:]` is then non-empty and appending
continuation lines preserves non-emptiness. -/
lemma processLines_message_ne_nil (toTs : LocalTime → Int) (k : Int) :
    ∀ (lines : List PyStr) (cur : Option LogRecord) (j : Nat),
      (∀ l ∈ lines, opensRecord l = true → 14 ≤ l.length) →
      (∀ d, cur = some d → d.message ≠ []) →
      ∀ r ∈ (processLines toTs k lines (cur, j)).1, r.message ≠ [] := by
  intro lines
  induction lines with
  | nil =>
    intro cur j _ hcur r hr
    simp only [processLines] at hr
    cases cur with
    | none => simp [Option.toList] at hr
    | some d =>
      simp only [Option.toList_some, List.mem_singleton] at hr
      exact hr ▸ hcur d rfl
  | cons line rest ih =>
    intro cur j hlines hcur r hr
    have hl0 : opensRecord line = true → 14 ≤ line.length := hlines line (by simp)
    have hrest : ∀ l ∈ rest, opensRecord l = true → 14 ≤ l.length :=
      fun l hl => hlines l (by simp [hl])
    rcases hm : matchDate line with _ | ⟨b, t⟩
    · rw [processLines_cons_err (genStep_badTime hm)] at hr
      simp at hr
    · cases b with
      | true =>
        cases t with
        | none =>
          rw [processLines_cons_err (genStep_boundary_bad hm)] at hr
          simp at hr
        | some tt =>
          have hlen : 14 ≤ line.length := hl0 (by simp [opensRecord, hm])
          by_cases hA : ((j + 1 : Nat) : Int) ≤ k
          · rw [processLines_cons_ok (genStep_boundary_skip hm hA)] at hr
            simp only [List.nil_append] at hr
            exact ih cur (j + 1) hrest hcur r hr
          · rw [processLines_cons_ok (genStep_boundary_open hm hA)] at hr
            simp only [List.mem_append] at hr
            rcases hr with hr | hr
            · cases cur with
              | none => simp [Option.toList] at hr
              | some d =>
                simp only [Option.toList_some, List.mem_singleton] at hr
                exact hr ▸ hcur d rfl
            · refine ih _ (j + 1) hrest ?_ r hr
              intro d hd
              injection hd with hd2
              rw [← hd2]
              show line.drop SKIP_CHARS ≠ []
              intro hnil
              have hdroplen := List.length_drop SKIP_CHARS line
              rw [hnil] at hdroplen
              have hsc : SKIP_CHARS = 13 := rfl
              simp only [List.length_nil] at hdroplen
              omega
      | false =>
        by_cases hA : ((j : Nat) : Int) ≤ k
        · rw [processLines_cons_ok (genStep_cont_skip hm hA)] at hr
          simp only [List.nil_append] at hr
          exact ih cur j hrest hcur r hr
        · cases hcurc : cur with
          | none =>
            rw [processLines_cons_err (genStep_cont_noskip_none hm hA hcurc)] at hr
            simp at hr
          | some d =>
            rw [processLines_cons_ok (genStep_cont_noskip_some hm hA hcurc)] at hr
            simp only [List.nil_append] at hr
            refine ih _ j hrest ?_ r hr
            intro d2 hd2
            injection hd2 with hd3
            rw [← hd3]
            have hdm : d.message ≠ [] := hcur d hcurc
            simp [hdm]

/-- C8 as amended: every emitted `LogRecord` has a non-empty message,
provided every record-opening line of the input has at least one
character after its 13-character timestamp prefix.  (A bare 13-character
timestamp line followed by no continuation yields an empty message, as
the counterexample shows.) -/
theorem claim_c8 (toTs : LocalTime → Int) (k : Int) (lines : List PyStr)
    (hlen : ∀ l ∈ lines, opensRecord l = true → 14 ≤ l.length) :
    ∀ r ∈ (generate_dicts toTs k lines).1, r.message ≠ [] :=
  processLines_message_ne_nil toTs k lines none 0 hlen
    (fun _ hd => Option.noConfusion hd)

/-- Witness for the amended C8 at a concrete input. -/
theorem claim_c8_witness :
    ({ timestamp := 36000000, message := "a\n".toList } : LogRecord).message ≠ [] :=
  claim_c8 demoTs 0 [dLineA] (by decide)
    { timestamp := 36000000, message := "a\n".toList } (by decide)

/-- C9: a matching line opens a record whose message is the line with
its 13-character matched prefix stripped, yielding the pending record
first; a non-matching line appends its full text (newline preserved) to
the open record; and on the spec's example stream the two records
produced carry the messages `"Start\ncontinuation\n"` and `"Done\n"`
with timestamps resolved from local times 10:00:00.000 and
10:00:01.500. -/
theorem claim_c9 (toTs : LocalTime → Int) :
    (∀ (skip : Int) (line : PyStr) (t : LocalTime) (cur : Option LogRecord) (j : Nat),
        matchDate line = some (true, some t) → ¬ ((j + 1 : Nat) : Int) ≤ skip →
        genStep toTs skip (cur, j) line =
          Except.ok (cur.toList,
            (some { timestamp := toTs t, message := line.drop SKIP_CHARS }, j + 1))) ∧
    (∀ (skip : Int) (line : PyStr) (d : LogRecord) (j : Nat),
        matchDate line = some (false, none) → ¬ ((j : Nat) : Int) ≤ skip →
        genStep toTs skip (some d, j) line =
          Except.ok ([], (some { d with message := d.message ++ line }, j))) ∧
    generate_dicts toTs 0
        ["10:00:00,000 Start\n".toList, "continuation\n".toList,
          "10:00:01,500 Done\n".toList] =
      ([{ timestamp := toTs ⟨10, 0, 0, 0⟩, message := "Start\ncontinuation\n".toList },
        { timestamp := toTs ⟨10, 0, 1, 500⟩, message := "Done\n".toList }], none) := by
  refine ⟨?_, ?_, ?_⟩
  · intro skip line t cur j hm h
    exact genStep_boundary_open hm h
  · intro skip line d j hm h
    exact genStep_cont_noskip_some hm h rfl
  · rfl

/-- Witness for C9: stripping and opening at a concrete line and state. -/
theorem claim_c9_witness :
    genStep demoTs 0 ((none : Option LogRecord), 0) dLineA =
      Except.ok ([],
        (some { timestamp := demoTs ⟨10, 0, 0, 0⟩, message := "a\n".toList }, 1)) :=
  (claim_c9 demoTs).1 0 dLineA ⟨10, 0, 0, 0⟩ none 0 (by decide) (by decide)

/-! ### Sink submission: token threading -/

/-- The calls issued carry exactly the input batches, in order. -/
lemma plePuts_map_logEvents (sink : Nat → SinkResp) :
    ∀ (batches : List (List LogRecord)) (i : Nat) (tok : Option String),
      ((plePuts sink i tok batches).1).map PutCall.logEvents = batches := by
  intro batches
  induction batches with
  | nil => intro i tok; rfl
  | cons b rest ih => intro i tok; simp [plePuts, ih]

/-- As many calls as batches. -/
lemma plePuts_length (sink : Nat → SinkResp) (batches : List (List LogRecord))
    (i : Nat) (tok : Option String) :
    ((plePuts sink i tok batches).1).length = batches.length := by
  have h := congrArg List.length (plePuts_map_logEvents sink batches i tok)
  simpa using h

/-- The first call carries the starting token. -/
lemma plePuts_get_zero (sink : Nat → SinkResp) (b : List LogRecord)
    (rest : List (List LogRecord)) (i : Nat) (tok : Option String)
    (h : 0 < ((plePuts sink i tok (b :: rest)).1).length) :
    (((plePuts sink i tok (b :: rest)).1).get ⟨0, h⟩).sequenceToken = tok := by
  simp [plePuts]

/-- Every later call carries the `nextSequenceToken` of the response to
the immediately preceding call. -/
lemma plePuts_get_succ (sink : Nat → SinkResp) :
    ∀ (batches : List (List LogRecord)) (i0 : Nat) (tok : Option String) (m : Nat)
      (h : m + 1 < ((plePuts sink i0 tok batches).1).length),
      (((plePuts sink i0 tok batches).1).get ⟨m + 1, h⟩).sequenceToken =
        (sink (i0 + m)).nextSequenceToken := by
  intro batches
  induction batches with
  | nil => intro i0 tok m h; simp [plePuts] at h
  | cons b rest ih =>
    intro i0 tok m h
    cases m with
    | zero =>
      have hlen : 0 <
          ((plePuts sink (i0 + 1) (sink i0).nextSequenceToken rest).1).length := by
        have h2 := h
        simp only [plePuts, List.length_cons] at h2
        omega
      cases rest with
      | nil => simp [plePuts] at hlen
      | cons b2 rest2 => simp [plePuts]
    | succ m2 =>
      have h2 : m2 + 1 <
          ((plePuts sink (i0 + 1) (sink i0).nextSequenceToken rest).1).length := by
        have h3 := h
        simp only [plePuts, List.length_cons] at h3
        omega
      have hih := ih (i0 + 1) (sink i0).nextSequenceToken m2 h2
      rw [show i0 + 1 + m2 = i0 + (m2 + 1) from by omega] at hih
      simp only [plePuts, List.get_cons_succ]
      exact hih

/-- C6: batches are submitted strictly in order; the first submission
carries the token obtained from describing the stream (`none` when the
stream had to be created), and every later submission carries exactly
the `nextSequenceToken` returned by the immediately preceding
submission. -/
theorem claim_c6 (sink : Nat → SinkResp) (streams : List StreamInfo) (name : String)
    (batches : List (List LogRecord)) :
    ((post_log_events sink (init_aws_stream streams name).1 batches).1).map
        PutCall.logEvents = batches ∧
    (∀ h : 0 < ((post_log_events sink (init_aws_stream streams name).1 batches).1).length,
      (((post_log_events sink (init_aws_stream streams name).1 batches).1).get
          ⟨0, h⟩).sequenceToken = (init_aws_stream streams name).1) ∧
    (∀ (i : Nat)
        (h : i + 1 <
          ((post_log_events sink (init_aws_stream streams name).1 batches).1).length),
      (((post_log_events sink (init_aws_stream streams name).1 batches).1).get
          ⟨i + 1, h⟩).sequenceToken = (sink i).nextSequenceToken) ∧
    ((init_aws_stream streams name).2 = true → (init_aws_stream streams name).1 = none) := by
  refine ⟨plePuts_map_logEvents sink batches 0 _, ?_, ?_, ?_⟩
  · intro h
    cases batches with
    | nil => simp [post_log_events, plePuts] at h
    | cons b rest => exact plePuts_get_zero sink b rest 0 _ h
  · intro i h
    have := plePuts_get_succ sink batches 0 _ i h
    simpa using this
  · intro hcreated
    unfold init_aws_stream at *
    cases hf : streams.find? (fun s => s.logStreamName == name) with
    | none => rfl
    | some s => rw [hf] at hcreated; simp at hcreated

/-- A demo sink oracle for the C6 witness. -/
def demoSink : Nat → SinkResp := fun i => { nextSequenceToken := some (Nat.repr i), rejectedLogEventsInfo := none }

/-- A demo stream listing for the C6 witness. -/
def demoStreams : List StreamInfo :=
  [{ logStreamName := "dv-server.log-2021-12-21", uploadSequenceToken := some "T0" }]

/-- Witness for C6: the second call of a concrete two-batch submission
carries the token returned by the first response. -/
theorem claim_c6_witness :
    (((post_log_events demoSink
          (init_aws_stream demoStreams "dv-server.log-2021-12-21").1
          [[rDemoA], [rDemoB]]).1).get ⟨0 + 1, by decide⟩).sequenceToken =
      (demoSink 0).nextSequenceToken :=
  (claim_c6 demoSink demoStreams "dv-server.log-2021-12-21"
    [[rDemoA], [rDemoB]]).2.2.1 0 (by decide)

/-! ### Auto mode: rotation handling -/

/-- C4: in auto mode with a checkpoint strictly in the past, the rotated
file (when present) is processed first with skip
`eventsProcessed + eventsSkipped` against the checkpoint date; counters
are reset and the active path pointed back at the base path whether or
not the rotated file exists; and the live file is always processed for
the current date with the post-reset skip offset zero, its report
following the rotated-file report. -/
theorem claim_c4 (prev : ResumeState) (previous_date today : Nat) (rot : Bool)
    (h : previous_date < today) :
    (log_auto_runs prev previous_date today rot).1 =
      (if rot then
        [{ skip := prev.num_events_processed + prev.num_events_skipped
           date := previous_date
           path := prev.server_log_base_file_path ++ "." ++ prev.date_used
           tz := prev.tzinfo }]
      else []) ++
        [{ skip := 0, date := today, path := prev.server_log_base_file_path
           tz := prev.tzinfo }] ∧
    (log_auto_runs prev previous_date today rot).2.num_events_processed = 0 ∧
    (log_auto_runs prev previous_date today rot).2.num_events_skipped = 0 ∧
    (log_auto_runs prev previous_date today rot).2.processed_server_log_file_path =
      prev.server_log_base_file_path := by
  unfold log_auto_runs
  rw [if_pos h]
  refine ⟨rfl, rfl, rfl, rfl⟩

/-- A demo checkpoint for the C4 witness. -/
def prevDemo : ResumeState :=
  { server_log_base_file_path := "/log/server.log"
    processed_server_log_file_path := "/log/server.log"
    date_used := "2021-12-21"
    num_events_processed := 5
    num_events_skipped := 3
    num_batches := 2
    tzinfo := "UTC" }

/-- Witness for C4: concrete rotated-then-live schedule. -/
theorem claim_c4_witness :
    (log_auto_runs prevDemo 0 1 true).1 =
      [{ skip := 8, date := 0, path := "/log/server.log.2021-12-21", tz := "UTC" },
        { skip := 0, date := 1, path := "/log/server.log", tz := "UTC" }] := by
  have h := (claim_c4 prevDemo 0 1 true (by decide)).1
  rw [h]
  decide

end DVPush
